import Mathlib

/-!
Shallow embedding of the DataManager file-management core: the File entity
lifecycle operations (`models` package), the upload pipeline and the
multi-action update orchestrator (`handlers` package).  Go structures become
Lean structures, the gorm store becomes an explicit `DB` value threaded
through every operation, and external collaborators (hash, random strings,
the remote HTTP peer) become explicit parameters.
-/

namespace DataManager

/-- A namespace row: `{id, name, ownerUserId}`. -/
structure Namespace where
  id : Nat
  name : String
  ownerId : Nat
deriving DecidableEq

/-- A tag row: `{id, name, namespaceId}` (the `Tag` gorm model). -/
structure Tag where
  id : Nat
  name : String
  namespaceId : Nat
deriving DecidableEq

/-- A group row, structurally identical to a tag row. -/
structure Group where
  id : Nat
  name : String
  namespaceId : Nat
deriving DecidableEq

/-- `sql.NullString`: a string column that may be NULL (`valid = false`). -/
structure NullString where
  str : String
  valid : Bool
deriving DecidableEq

/-- The `File` gorm model.  `namespaceRef` models the `Namespace` pointer
(`none` = nil pointer), `namespaceId` the `namespace_id` column, and
`deleted` the gorm soft-delete column `deleted_at`. -/
structure File where
  id : Nat
  name : String
  localName : String
  userId : Nat
  fileSize : Int
  fileType : String
  isPublic : Bool
  publicFilename : NullString
  groups : List Group
  tags : List Tag
  namespaceRef : Option Nat
  namespaceId : Nat
  deleted : Bool
deriving DecidableEq

/-- The relational store: all rows plus the auto-increment counter. -/
structure DB where
  namespaces : List Namespace
  tags : List Tag
  groups : List Group
  files : List File
  nextId : Nat
deriving DecidableEq

/-- Modelled from the spec: the process-wide default namespace
(`models.DefaultNamespace` is not among the sources; §3 requires a
well-known default used whenever an operation omits a namespace). -/
def DefaultNamespace : Namespace :=
  { id := 1, name := "default", ownerId := 0 }

/-- A user together with its role capabilities, as queried by the handlers
(`CanUploadFiles`, `AllowedToUploadURLs`, `CanWriteForeignNamespace`,
`HasUploadLimit`, `Role.MaxURLcontentSize`). -/
structure User where
  id : Nat
  canUploadFiles : Bool
  allowedToUploadURLs : Bool
  canWriteForeignNamespace : Bool
  hasUploadLimit : Bool
  maxURLcontentSize : Int
deriving DecidableEq

/-- Modelled from the spec: `Namespace.IsOwnedBy` is not among the sources;
per §4.1 the registry answers ownership checks by owner identity. -/
def Namespace.IsOwnedBy (ns : Namespace) (user : User) : Bool :=
  ns.ownerId == user.id

/-- Modelled from the spec: `models.FindNamespace` is not among the sources;
per §4.1 an empty or omitted name resolves to the default namespace,
otherwise the namespace is looked up by name. -/
def FindNamespace (db : DB) (name : String) : Option Namespace :=
  if name.length = 0 then some DefaultNamespace
  else db.namespaces.find? (fun n => n.name == name)

/-- Look a file row up by primary key. -/
def getFileById (db : DB) (id : Nat) : Option File :=
  db.files.find? (fun f => f.id == id)

/-- `db.Save(file)`: update the row with the same primary key, inserting it
when no such row exists (`File.Save` in the sources). -/
def saveFile (db : DB) (f : File) : DB :=
  if db.files.any (fun g => g.id == f.id) then
    { db with files := db.files.map (fun g => if g.id = f.id then f else g) }
  else
    { db with files := db.files ++ [f] }

/-- `db.Delete(&file)`: gorm soft delete, marking the row deleted. -/
def softDeleteFile (db : DB) (f : File) : DB :=
  { db with files :=
      db.files.map (fun g => if g.id = f.id then { g with deleted := true } else g) }

/-- `GetPublicFile`: first live row whose `public_filename` column equals the
requested name (a NULL column never matches); `none` plays the role of the
`found = false` result. -/
def GetPublicFile (db : DB) (publicName : String) : Option File :=
  (db.files.filter (fun f => !f.deleted)).find?
    (fun f => f.publicFilename.valid && f.publicFilename.str == publicName)

/-- Modelled from the spec: `Tag.Insert` is not among the sources; per §4.2
an absent name is created with the given namespace/owner, receiving a fresh
id from the store. -/
def Tag.Insert (db : DB) (t : Tag) : DB × Tag :=
  let u : Tag := { t with id := db.nextId }
  ({ db with tags := db.tags ++ [u], nextId := db.nextId + 1 }, u)

/-- Modelled from the spec: `Group.Insert` is not among the sources; per
§4.2 an absent name is created with the given namespace/owner. -/
def Group.Insert (db : DB) (g : Group) : DB × Group :=
  let u : Group := { g with id := db.nextId }
  ({ db with groups := db.groups ++ [u], nextId := db.nextId + 1 }, u)

/-- Modelled from the spec: `models.GetTag` is not among the sources; per
§4.2 the catalog resolves a name by `(name, namespace)` and creates the tag
there when absent. -/
def GetTag (db : DB) (name : String) (nsId : Nat) : DB × Tag :=
  match db.tags.find? (fun u => u.name == name && u.namespaceId == nsId) with
  | some u => (db, u)
  | none => Tag.Insert db { id := 0, name := name, namespaceId := nsId }

/-- Modelled from the spec: `models.GetGroup`, symmetric to `GetTag`. -/
def GetGroup (db : DB) (name : String) (nsId : Nat) : DB × Group :=
  match db.groups.find? (fun u => u.name == name && u.namespaceId == nsId) with
  | some u => (db, u)
  | none => Group.Insert db { id := 0, name := name, namespaceId := nsId }

/-- Modelled from the spec: `models.TagsFromStringArr` is not among the
sources; it builds the draft tag entities (id 0) for the requested names in
the target namespace, resolved later by `File.Insert`. -/
def TagsFromStringArr (names : List String) (ns : Namespace) : List Tag :=
  names.map (fun n => { id := 0, name := n, namespaceId := ns.id })

/-- Modelled from the spec: `models.GroupsFromStringArr`, symmetric. -/
def GroupsFromStringArr (names : List String) (ns : Namespace) : List Group :=
  names.map (fun n => { id := 0, name := n, namespaceId := ns.id })

/-- One step of the tag-resolution loop in `File.Insert`: a draft tag
(id 0) is looked up with `db.Where(&Tag{Name: ...}).Find(...)` — a
condition on the name alone — and created only when that lookup fails. -/
def resolveTag (db : DB) (t : Tag) : DB × Tag :=
  if t.id ≠ 0 then (db, t)
  else
    match db.tags.find? (fun u => u.name == t.name) with
    | some u => (db, u)
    | none => Tag.Insert db t

/-- One step of the group-resolution loop in `File.Insert` (name-only
lookup, exactly as for tags). -/
def resolveGroup (db : DB) (g : Group) : DB × Group :=
  if g.id ≠ 0 then (db, g)
  else
    match db.groups.find? (fun u => u.name == g.name) with
    | some u => (db, u)
    | none => Group.Insert db g

/-- The `for i := range file.Tags` loop of `File.Insert`. -/
def resolveTags (db : DB) : List Tag → DB × List Tag
  | [] => (db, [])
  | t :: ts =>
    let r := resolveTag db t
    let rs := resolveTags r.1 ts
    (rs.1, r.2 :: rs.2)

/-- The `for i := range file.Groups` loop of `File.Insert`. -/
def resolveGroups (db : DB) : List Group → DB × List Group
  | [] => (db, [])
  | g :: gs =>
    let r := resolveGroup db g
    let rs := resolveGroups r.1 gs
    (rs.1, r.2 :: rs.2)

/-- `File.GetNamespace`: the default namespace when the pointer is nil. -/
def File.GetNamespace (f : File) : Nat :=
  match f.namespaceRef with
  | none => DefaultNamespace.id
  | some i => i

/-- `File.HasTag`. -/
def File.HasTag (f : File) (sTag : String) : Bool :=
  f.tags.any (fun t => t.name == sTag)

/-- `File.HasGroup`. -/
def File.HasGroup (f : File) (sGroup : String) : Bool :=
  f.groups.any (fun g => g.name == sGroup)

/-- `File.Insert`: resolve the draft groups and tags (name-only lookup,
creating missing ones), default the namespace, set the uploader and create
the file row.  `createFails` models the store rejecting the final
`db.Create(file)`; the tag/group rows created before that failure remain,
as they do under gorm. -/
def File.Insert (db : DB) (file : File) (userId : Nat) (createFails : Bool) :
    Bool × DB × File :=
  let rg := resolveGroups db file.groups
  let rt := resolveTags rg.1 file.tags
  let f1 : File :=
    { file with
      groups := rg.2, tags := rt.2, userId := userId,
      namespaceRef := some file.GetNamespace, namespaceId := file.GetNamespace }
  if createFails then (true, rt.1, f1)
  else
    let f2 : File := { f1 with id := rt.1.nextId }
    (false, { rt.1 with files := rt.1.files ++ [f2], nextId := rt.1.nextId + 1 }, f2)

/-- `File.Rename`: pure field update plus save. -/
def File.Rename (db : DB) (f : File) (newName : String) : DB × File :=
  let f1 : File := { f with name := newName }
  (saveFile db f1, f1)

/-- `File.SetVilibility` (sic): sets `IsPublic` and saves — and nothing
else; the `PublicFilename` column is not touched by this operation. -/
def File.SetVilibility (db : DB) (f : File) (newVisibility : Bool) : DB × File :=
  let f1 : File := { f with isPublic := newVisibility }
  (saveFile db f1, f1)

/-- The `for _, sTag := range tagsToAdd` loop of `File.AddTags`: names the
file already carries are skipped, the rest are resolved via `GetTag` and
appended. -/
def addTagsLoop (db : DB) (f : File) : List String → DB × File
  | [] => (db, f)
  | n :: rest =>
    if f.HasTag n then addTagsLoop db f rest
    else
      let r := GetTag db n f.namespaceId
      addTagsLoop r.1 { f with tags := f.tags ++ [r.2] } rest

/-- `File.AddTags`: run the append loop, then save (the save happens even
when every name was already present). -/
def File.AddTags (db : DB) (f : File) (tagsToAdd : List String) : DB × File :=
  let r := addTagsLoop db f tagsToAdd
  (saveFile r.1 r.2, r.2)

/-- `File.RemoveTags`: nothing happens on a file without tags; otherwise
the kept tags are those whose name is not in the removal list, and the file
is saved only when at least one tag was dropped. -/
def File.RemoveTags (db : DB) (f : File) (tagsToRemove : List String) : DB × File :=
  if f.tags.length = 0 then (db, f)
  else
    let newTags := f.tags.filter (fun t => !(tagsToRemove.contains t.name))
    if newTags.length < f.tags.length then
      let f1 : File := { f with tags := newTags }
      (saveFile db f1, f1)
    else (db, f)

/-- The append loop of `File.AddGroups`, symmetric to `addTagsLoop`. -/
def addGroupsLoop (db : DB) (f : File) : List String → DB × File
  | [] => (db, f)
  | n :: rest =>
    if f.HasGroup n then addGroupsLoop db f rest
    else
      let r := GetGroup db n f.namespaceId
      addGroupsLoop r.1 { f with groups := f.groups ++ [r.2] } rest

/-- `File.AddGroups`. -/
def File.AddGroups (db : DB) (f : File) (groupsToAdd : List String) : DB × File :=
  let r := addGroupsLoop db f groupsToAdd
  (saveFile r.1 r.2, r.2)

/-- `File.RemoveGroups`: like `File.RemoveTags`, except that the function
saves the file even when no group matched (its final `return file.Save(db)`
sits outside the removal branch). -/
def File.RemoveGroups (db : DB) (f : File) (groupsToRemove : List String) : DB × File :=
  if f.groups.length = 0 then (db, f)
  else
    let newGroups := f.groups.filter (fun g => !(groupsToRemove.contains g.name))
    if newGroups.length < f.groups.length then
      let f1 : File := { f with groups := newGroups }
      (saveFile db f1, f1)
    else (saveFile db f, f)

/-- `File.Delete`: clear the public fields to free the slug, save, remove
the content blob from local storage, then soft-delete the row. -/
def File.Delete (db : DB) (blobs : List String) (f : File) :
    DB × List String × File :=
  let f1 : File := { f with isPublic := false, publicFilename := ⟨"", false⟩ }
  let db1 := saveFile db f1
  let blobs1 := blobs.filter (fun b => b ≠ f1.localName)
  (softDeleteFile db1 f1, blobs1, { f1 with deleted := true })

/-- The tag-migration loop of `File.UpdateNamespace`: every attached tag is
re-resolved (or created) in the new namespace via `GetTag`. -/
def migrateTags (db : DB) (nsId : Nat) : List Tag → DB × List Tag
  | [] => (db, [])
  | t :: ts =>
    let r := GetTag db t.name nsId
    let rs := migrateTags r.1 nsId ts
    (rs.1, r.2 :: rs.2)

/-- The group-migration loop of `File.UpdateNamespace`. -/
def migrateGroups (db : DB) (nsId : Nat) : List Group → DB × List Group
  | [] => (db, [])
  | g :: gs =>
    let r := GetGroup db g.name nsId
    let rs := migrateGroups r.1 nsId gs
    (rs.1, r.2 :: rs.2)

/-- `File.UpdateNamespace`: point the file at the new namespace, migrate
the attached tags and groups into it, and save. -/
def File.UpdateNamespace (db : DB) (f : File) (newNs : Namespace) : DB × File :=
  let f0 : File := { f with namespaceRef := some newNs.id, namespaceId := newNs.id }
  let rt :=
    if f0.tags.length > 0 then
      let r := migrateTags db newNs.id f0.tags
      (r.1, { f0 with tags := r.2 })
    else (db, f0)
  let rg :=
    if (rt.2).groups.length > 0 then
      let r := migrateGroups rt.1 newNs.id (rt.2).groups
      (r.1, { rt.2 with groups := r.2 })
    else rt
  (saveFile rg.1 rg.2, rg.2)

/-- `File.Publish`: choose the requested slug (or a freshly drawn
25-character one for an empty request), mutate the in-memory file, then
look the slug up with `GetPublicFile`; when any row holds it the call
reports a conflict without saving, otherwise the mutated file is saved. -/
def File.Publish (db : DB) (f : File) (publicName : String) (rand25 : String) :
    Bool × DB × File :=
  let name := if publicName.length = 0 then rand25 else publicName
  let f1 : File := { f with publicFilename := ⟨name, true⟩, isPublic := true }
  match GetPublicFile db name with
  | some _ => (true, db, f1)
  | none => (false, saveFile db f1, f1)

/-- `strconv.ParseBool`: the exact set of accepted literals. -/
def parseBool (s : String) : Option Bool :=
  if s = "1" ∨ s = "t" ∨ s = "T" ∨ s = "true" ∨ s = "TRUE" ∨ s = "True" then
    some true
  else if s = "0" ∨ s = "f" ∨ s = "F" ∨ s = "false" ∨ s = "FALSE" ∨ s = "False" then
    some false
  else none

/-- The sub-action fields of the update request, as dereferenced by
`UpdateFileHandler` (`request.Updates.*`). -/
structure FileUpdate where
  newName : String
  isPublic : String
  newNamespace : String
  addTags : List String
  removeTags : List String
  addGroups : List String
  removeGroups : List String
deriving DecidableEq

/-- Outcome of the update orchestrator: the `"success"` response, the
`"noting to do"` response (the handler's spelling), the
`"isPublic must be a bool"` response, or the `"invalid action"` response. -/
inductive UpdateOutcome where
  | success
  | nothingToDo
  | invalidBool
  | invalidAction
deriving DecidableEq

/-- Rename sub-action of `UpdateFileHandler`: when a new name is present
the file is renamed and `didUpdate` is set to `true`. -/
def stepRename (db : DB) (f : File) (u : FileUpdate) : DB × File × Bool :=
  if u.newName.length > 0 then
    let r := File.Rename db f u.newName
    (r.1, r.2, true)
  else (db, f, false)

/-- Visibility sub-action: a present `isPublic` string is parsed (`none`
models the `"isPublic must be a bool"` early return) and applied, setting
`didUpdate` to `true`. -/
def stepVisibility (db : DB) (f : File) (did : Bool) (u : FileUpdate) :
    Option (DB × File × Bool) :=
  if u.isPublic.length > 0 then
    match parseBool u.isPublic with
    | none => none
    | some v =>
      let r := File.SetVilibility db f v
      some (r.1, r.2, true)
  else some (db, f, did)

/-- Add-tags sub-action: note that `didUpdate` is overwritten with this
sub-action's own comparison, not or-ed with the previous value. -/
def stepAddTags (db : DB) (f : File) (did : Bool) (u : FileUpdate) :
    DB × File × Bool :=
  if u.addTags.length > 0 then
    let curr := f.tags.length
    let r := File.AddTags db f u.addTags
    (r.1, r.2, decide (r.2.tags.length > curr))
  else (db, f, did)

/-- Remove-tags sub-action, again overwriting `didUpdate`. -/
def stepRemoveTags (db : DB) (f : File) (did : Bool) (u : FileUpdate) :
    DB × File × Bool :=
  if u.removeTags.length > 0 then
    let curr := f.tags.length
    let r := File.RemoveTags db f u.removeTags
    (r.1, r.2, decide (r.2.tags.length < curr))
  else (db, f, did)

/-- Add-groups sub-action, overwriting `didUpdate`. -/
def stepAddGroups (db : DB) (f : File) (did : Bool) (u : FileUpdate) :
    DB × File × Bool :=
  if u.addGroups.length > 0 then
    let curr := f.groups.length
    let r := File.AddGroups db f u.addGroups
    (r.1, r.2, decide (r.2.groups.length > curr))
  else (db, f, did)

/-- Remove-groups sub-action, overwriting `didUpdate`. -/
def stepRemoveGroups (db : DB) (f : File) (did : Bool) (u : FileUpdate) :
    DB × File × Bool :=
  if u.removeGroups.length > 0 then
    let curr := f.groups.length
    let r := File.RemoveGroups db f u.removeGroups
    (r.1, r.2, decide (r.2.groups.length < curr))
  else (db, f, did)

/-- The `"update"` branch of `UpdateFileHandler`: rename, visibility,
namespace migration (the source body is only a `//TODO` stub, so nothing
happens there), add tags, remove tags, add groups, remove groups; finally
`didUpdate` selects between the success and the no-op response. -/
def executeUpdate (db : DB) (f : File) (u : FileUpdate) :
    UpdateOutcome × DB × File :=
  let s1 := stepRename db f u
  match stepVisibility s1.1 s1.2.1 s1.2.2 u with
  | none => (UpdateOutcome.invalidBool, s1.1, s1.2.1)
  | some s2 =>
    let s3 := stepAddTags s2.1 s2.2.1 s2.2.2 u
    let s4 := stepRemoveTags s3.1 s3.2.1 s3.2.2 u
    let s5 := stepAddGroups s4.1 s4.2.1 s4.2.2 u
    let s6 := stepRemoveGroups s5.1 s5.2.1 s5.2.2 u
    (if s6.2.2 then UpdateOutcome.success else UpdateOutcome.nothingToDo,
     s6.1, s6.2.1)

/-- The action switch of `UpdateFileHandler` once the target file has been
resolved: `delete` always reports success, `update` runs `executeUpdate`. -/
def executeAction (db : DB) (blobs : List String) (f : File)
    (action : String) (u : FileUpdate) :
    UpdateOutcome × DB × List String × File :=
  if action = "delete" then
    let r := File.Delete db blobs f
    (UpdateOutcome.success, r.1, r.2.1, r.2.2)
  else if action = "update" then
    let r := executeUpdate db f u
    (r.1, r.2.1, blobs, r.2.2)
  else (UpdateOutcome.invalidAction, db, blobs, f)

/-- The URL schemes the upload handler accepts (`AllowedSchemes`). -/
def AllowedSchemes : List String := ["http", "https"]

/-- `isValidHTTPURL`: parse the URL (the parser is an external collaborator
passed as `schemeOf`, returning the scheme of a well-formed URL) and check
the scheme against the allow-list. -/
def isValidHTTPURL (schemeOf : String → Option String) (inp : String) : Bool :=
  match schemeOf inp with
  | none => false
  | some s => AllowedSchemes.contains s

/-- The remote peer of a URL upload: whether `http.Get` itself fails, the
response status, the advertised `ContentLength` and the actual body size. -/
structure Upstream where
  getFails : Bool
  status : Nat
  contentLength : Int
  bodyLen : Int
deriving DecidableEq

/-- `downloadHTTP`: returns `(status, error, size written)`.  A failing
`http.Get` is an error; a non-2xx status returns early without reading the
body; a limited user whose `ContentLength` exceeds the role ceiling gets
the `File too large` error; otherwise the body is copied through a reader
bounded by the ceiling when one applies. -/
def downloadHTTP (user : User) (up : Upstream) : Nat × Option String × Int :=
  if up.getFails then (0, some "http get error", 0)
  else if up.status < 200 ∨ up.status > 299 then (up.status, none, 0)
  else if user.hasUploadLimit ∧ up.contentLength > user.maxURLcontentSize then
    (up.status, some "File too large", 0)
  else
    let size := if user.hasUploadLimit then min up.bodyLen user.maxURLcontentSize
                else up.bodyLen
    (up.status, none, size)

/-- Rows (live, as gorm counts) holding a given local storage name. -/
def countLocalName (db : DB) (n : String) : Nat :=
  (db.files.filter (fun f => !f.deleted && f.localName == n)).length

/-- The local-name allocation loop of `UploadfileHandler`: starting at
attempt `i` with `k` attempts remaining, draw `draw i` and stop at the
first name no row holds; the second component counts the draws made. -/
def findFreeLocalName (db : DB) (draw : Nat → String) :
    Nat → Nat → Option String × Nat
  | _, 0 => (none, 0)
  | i, k + 1 =>
    if countLocalName db (draw i) = 0 then (some (draw i), 1)
    else
      let r := findFreeLocalName db draw (i + 1) k
      (r.1, r.2 + 1)

/-- The allocator as run by the handler: at most 5 attempts from index 0. -/
def allocateLocalName (db : DB) (draw : Nat → String) : Option String × Nat :=
  findFreeLocalName db draw 0 5

/-- The `UploadType` constants of the request model. -/
inductive UploadType where
  | fileUpload
  | urlUpload
  | invalid
deriving DecidableEq

/-- The attributes carried by upload and update requests. -/
structure FileAttributes where
  tags : List String
  groups : List String
  nsName : String
deriving DecidableEq

/-- The upload request body (`models.UploadRequest`): raw bytes plus their
checksum, or a remote URL. -/
structure UploadRequest where
  uploadType : UploadType
  data : List Nat
  sum : String
  name : String
  url : String
  attributes : FileAttributes
deriving DecidableEq

/-- The distinct responses of `UploadfileHandler`. -/
inductive UploadOutcome where
  | notAllowedFiles
  | integrityError
  | notAllowedURLs
  | badURL
  | invalidType
  | namespaceNotFound
  | foreignWriteDenied
  | allocationExhausted
  | fetchFailed (msg : String)
  | upstreamStatus (status : Nat)
  | insertError
  | success (fileId : Nat)
deriving DecidableEq

/-- The final step of the upload: `file.Insert`; an insert error yields the
generic server error, and the handler returns either way without touching
the blob just written. -/
def uploadInsert (db : DB) (blobs : List String) (user : User) (file : File)
    (insertFails : Bool) : UploadOutcome × List String × DB :=
  let r := File.Insert db file user.id insertFails
  if r.1 then (UploadOutcome.insertError, blobs, r.2.1)
  else (UploadOutcome.success r.2.2.id, blobs, r.2.1)

/-- `UploadfileHandler` after the per-kind validation: default the name,
resolve the namespace and check access, build the draft attributes,
allocate a local name (exhaustion is the reported server error), create
the content blob under it, produce the content (raw write or remote
fetch — whose failures return with the blob still in place), and insert
the metadata row. -/
def uploadValidated (db : DB) (blobs : List String) (user : User)
    (request : UploadRequest) (draw : Nat → String) (rand20 : String)
    (up : Upstream) (insertFails : Bool) : UploadOutcome × List String × DB :=
  let name := if request.name.length = 0 then rand20 else request.name
  match FindNamespace db request.attributes.nsName with
  | none => (UploadOutcome.namespaceNotFound, blobs, db)
  | some ns =>
    if ns.IsOwnedBy user || user.canWriteForeignNamespace then
      let tags := TagsFromStringArr request.attributes.tags ns
      let groups := GroupsFromStringArr request.attributes.groups ns
      match (allocateLocalName db draw).1 with
      | none => (UploadOutcome.allocationExhausted, blobs, db)
      | some localName =>
        let file : File :=
          { id := 0, name := name, localName := localName, userId := user.id,
            fileSize := 0, fileType := "", isPublic := false,
            publicFilename := ⟨"", false⟩, groups := groups, tags := tags,
            namespaceRef := some ns.id, namespaceId := ns.id, deleted := false }
        let blobs1 := blobs ++ [localName]
        match request.uploadType with
        | UploadType.urlUpload =>
          let r := downloadHTTP user up
          match r.2.1 with
          | some m => (UploadOutcome.fetchFailed m, blobs1, db)
          | none =>
            if r.1 > 299 ∨ r.1 < 200 then
              (UploadOutcome.upstreamStatus r.1, blobs1, db)
            else uploadInsert db blobs1 user { file with fileSize := r.2.2 } insertFails
        | UploadType.fileUpload =>
          uploadInsert db blobs1 user
            { file with fileSize := (request.data.length : Int) } insertFails
        | UploadType.invalid => uploadInsert db blobs1 user file insertFails
    else (UploadOutcome.foreignWriteDenied, blobs, db)

/-- `UploadfileHandler`: the per-kind validation switch — capability
checks, the checksum comparison for raw uploads (before anything is
written), URL syntax checks for URL uploads — followed by the common
pipeline. -/
def UploadfileHandler (db : DB) (blobs : List String) (user : User)
    (request : UploadRequest) (md5 : List Nat → String)
    (schemeOf : String → Option String) (draw : Nat → String) (rand20 : String)
    (up : Upstream) (insertFails : Bool) : UploadOutcome × List String × DB :=
  match request.uploadType with
  | UploadType.fileUpload =>
    if user.canUploadFiles then
      if md5 request.data ≠ request.sum then (UploadOutcome.integrityError, blobs, db)
      else uploadValidated db blobs user request draw rand20 up insertFails
    else (UploadOutcome.notAllowedFiles, blobs, db)
  | UploadType.urlUpload =>
    if user.allowedToUploadURLs then
      if request.url.length = 0 ∨ ¬ isValidHTTPURL schemeOf request.url then
        (UploadOutcome.badURL, blobs, db)
      else uploadValidated db blobs user request draw rand20 up insertFails
    else (UploadOutcome.notAllowedURLs, blobs, db)
  | UploadType.invalid => (UploadOutcome.invalidType, blobs, db)

/-- The observable result of the preview endpoint. -/
inductive PreviewOutcome where
  | notFound
  | serve (localName : String) (fileType : String)
deriving DecidableEq

/-- `PrevievFileHandler` (sic): look the slug up with `GetPublicFile`;
an absent row is NotFound, a row whose `IsPublic` flag is false is also
NotFound, otherwise the file's content is served. -/
def PrevievFileHandler (db : DB) (publicName : String) : PreviewOutcome :=
  match GetPublicFile db publicName with
  | none => PreviewOutcome.notFound
  | some f =>
    if f.isPublic then PreviewOutcome.serve f.localName f.fileType
    else PreviewOutcome.notFound

/-- Replacing every row carrying a given primary key makes the lookup of
that key return the replacement, provided some row carried it. -/
theorem find?_idReplace (l : List File) (f : File)
    (h : l.any (fun g => g.id == f.id) = true) :
    (l.map (fun g => if g.id = f.id then f else g)).find? (fun g => g.id == f.id)
      = some f := by
  induction l with
  | nil => simp at h
  | cons a l ih =>
    simp only [List.map_cons]
    by_cases ha : a.id = f.id
    · rw [if_pos ha]
      simp [List.find?]
    · rw [if_neg ha]
      rw [List.find?_cons_of_neg _ (by simp [ha])]
      apply ih
      simpa [ha] using h

/-- Appending a row to a table in which no row carries its primary key
makes the lookup of that key return the appended row. -/
theorem find?_appendSelf (l : List File) (f : File)
    (h : l.any (fun g => g.id == f.id) = false) :
    (l ++ [f]).find? (fun g => g.id == f.id) = some f := by
  induction l with
  | nil => simp [List.find?]
  | cons a l ih =>
    simp only [List.any_cons, Bool.or_eq_false_iff] at h
    simp only [List.cons_append]
    rw [List.find?_cons_of_neg _ (by simp [h.1])]
    exact ih h.2

/-- After `saveFile` the saved row is what its primary key resolves to. -/
theorem getFileById_saveFile (db : DB) (f : File) :
    getFileById (saveFile db f) f.id = some f := by
  rw [getFileById, saveFile]
  by_cases h : db.files.any (fun g => g.id == f.id) = true
  · rw [if_pos h]
    exact find?_idReplace db.files f h
  · rw [if_neg h]
    exact find?_appendSelf db.files f (by simpa using h)

/-- Resolving one draft tag never touches the file table. -/
theorem resolveTag_files (db : DB) (t : Tag) : (resolveTag db t).1.files = db.files := by
  by_cases hid : t.id ≠ 0
  · simp [resolveTag, hid]
  · cases h : db.tags.find? (fun u => u.name == t.name) <;>
      simp [resolveTag, hid, h, Tag.Insert]

/-- Resolving one draft group never touches the file table. -/
theorem resolveGroup_files (db : DB) (g : Group) :
    (resolveGroup db g).1.files = db.files := by
  by_cases hid : g.id ≠ 0
  · simp [resolveGroup, hid]
  · cases h : db.groups.find? (fun u => u.name == g.name) <;>
      simp [resolveGroup, hid, h, Group.Insert]

/-- The tag-resolution loop never touches the file table. -/
theorem resolveTags_files (ts : List Tag) :
    ∀ db : DB, (resolveTags db ts).1.files = db.files := by
  induction ts with
  | nil => intro db; rfl
  | cons t ts ih =>
    intro db
    simp only [resolveTags]
    rw [ih]
    exact resolveTag_files db t

/-- The group-resolution loop never touches the file table. -/
theorem resolveGroups_files (gs : List Group) :
    ∀ db : DB, (resolveGroups db gs).1.files = db.files := by
  induction gs with
  | nil => intro db; rfl
  | cons g gs ih =>
    intro db
    simp only [resolveGroups]
    rw [ih]
    exact resolveGroup_files db g

/-- A non-failing `File.Insert` reports no error. -/
theorem File.Insert_ok_fst (db : DB) (f : File) (uid : Nat) :
    (File.Insert db f uid false).1 = false := by
  simp [File.Insert]

/-- `File.Insert` keeps the local storage name of the draft. -/
theorem File.Insert_ok_localName (db : DB) (f : File) (uid : Nat) :
    (File.Insert db f uid false).2.2.localName = f.localName := by
  simp [File.Insert]

/-- The row created by a non-failing `File.Insert` is in the file table. -/
theorem File.Insert_ok_mem (db : DB) (f : File) (uid : Nat) :
    (File.Insert db f uid false).2.2 ∈ (File.Insert db f uid false).2.1.files := by
  simp [File.Insert]

/-- `File.RemoveTags` with names matching no attached tag is a no-op. -/
theorem RemoveTags_no_match (db : DB) (f : File) (names : List String)
    (h : ∀ t ∈ f.tags, names.contains t.name = false) :
    File.RemoveTags db f names = (db, f) := by
  by_cases h0 : f.tags.length = 0
  · simp [File.RemoveTags, h0]
  · have heq : f.tags.filter (fun t => !decide (t.name ∈ names)) = f.tags :=
      List.filter_eq_self.mpr (fun t ht => by simpa using h t ht)
    simp [File.RemoveTags, h0, heq]

/-- Running out of attempts: if every one of the `k` remaining draws
collides, the loop reports no name after exactly `k` draws. -/
theorem findFreeLocalName_none (db : DB) (draw : Nat → String) :
    ∀ (k i : Nat), (∀ t, t < k → countLocalName db (draw (i + t)) ≠ 0) →
      findFreeLocalName db draw i k = (none, k) := by
  intro k
  induction k with
  | zero => intro i _; rfl
  | succ k ih =>
    intro i h
    have h0 : ¬ countLocalName db (draw i) = 0 := by
      have := h 0 (Nat.succ_pos k)
      simpa using this
    have hrest : ∀ t, t < k → countLocalName db (draw (i + 1 + t)) ≠ 0 := by
      intro t ht
      have harg : i + 1 + t = i + (t + 1) := by omega
      rw [harg]
      exact h (t + 1) (by omega)
    simp [findFreeLocalName, h0, ih (i + 1) hrest]

/-- First success: if draw `j` is the first free name among the `k`
attempts, the loop returns it after `j + 1` draws. -/
theorem findFreeLocalName_first (db : DB) (draw : Nat → String) :
    ∀ (k j i : Nat), j < k → countLocalName db (draw (i + j)) = 0 →
      (∀ t, t < j → countLocalName db (draw (i + t)) ≠ 0) →
      findFreeLocalName db draw i k = (some (draw (i + j)), j + 1) := by
  intro k
  induction k with
  | zero => intro j i hj _ _; exact absurd hj (Nat.not_lt_zero j)
  | succ k ih =>
    intro j i hj hfree hprev
    cases j with
    | zero =>
      have h0 : countLocalName db (draw i) = 0 := by simpa using hfree
      simp [findFreeLocalName, h0]
    | succ j =>
      have h0 : ¬ countLocalName db (draw i) = 0 := by
        have := hprev 0 (Nat.succ_pos j)
        simpa using this
      have hfree' : countLocalName db (draw (i + 1 + j)) = 0 := by
        have harg : i + 1 + j = i + (j + 1) := by omega
        rw [harg]
        exact hfree
      have hprev' : ∀ t, t < j → countLocalName db (draw (i + 1 + t)) ≠ 0 := by
        intro t ht
        have harg : i + 1 + t = i + (t + 1) := by omega
        rw [harg]
        exact hprev (t + 1) (by omega)
      have hrec := ih j (i + 1) (by omega) hfree' hprev'
      have harg : i + 1 + j = i + (j + 1) := by omega
      rw [harg] at hrec
      simp [findFreeLocalName, h0, hrec]

/-- C1 (amended): `File.Publish` reports a conflict exactly when the slug
used (the requested one, or the freshly drawn one for an empty request) is
already bound as the public slug of some live file — including the
published file itself; on conflict the store is left unchanged (the
in-memory mutation is not saved), otherwise the file is persisted with
`isPublic = true` and the slug used. -/
theorem publish_slug_semantics (db : DB) (f : File) (requested rand25 : String) :
    (File.Publish db f requested rand25).1
        = (GetPublicFile db (if requested.length = 0 then rand25 else requested)).isSome ∧
    ((File.Publish db f requested rand25).1 = true →
        (File.Publish db f requested rand25).2.1 = db) ∧
    ((File.Publish db f requested rand25).1 = false →
        getFileById (File.Publish db f requested rand25).2.1 f.id
          = some { f with
              isPublic := true,
              publicFilename := ⟨if requested.length = 0 then rand25 else requested, true⟩ }) := by
  cases h : GetPublicFile db (if requested.length = 0 then rand25 else requested) with
  | some g => simp [File.Publish, h]
  | none =>
    refine ⟨by simp [File.Publish, h], by simp [File.Publish, h], ?_⟩
    intro _
    have hpub : (File.Publish db f requested rand25).2.1
        = saveFile db { f with
            isPublic := true,
            publicFilename := ⟨if requested.length = 0 then rand25 else requested, true⟩ } := by
      simp [File.Publish, h]
    rw [hpub]
    exact getFileById_saveFile db _

/-- C1 witness: publishing a file under a fresh slug persists the public
state. -/
theorem publish_slug_semantics_witness :
    getFileById
        (File.Publish
          { namespaces := [], tags := [], groups := [],
            files := [{ id := 3, name := "a", localName := "l", userId := 1, fileSize := 0, fileType := "", isPublic := false, publicFilename := ⟨"", false⟩, groups := [], tags := [], namespaceRef := some 1, namespaceId := 1, deleted := false }],
            nextId := 4 }
          { id := 3, name := "a", localName := "l", userId := 1, fileSize := 0, fileType := "", isPublic := false, publicFilename := ⟨"", false⟩, groups := [], tags := [], namespaceRef := some 1, namespaceId := 1, deleted := false }
          "abc" "r").2.1 3
      = some { id := 3, name := "a", localName := "l", userId := 1, fileSize := 0, fileType := "", isPublic := true, publicFilename := ⟨"abc", true⟩, groups := [], tags := [], namespaceRef := some 1, namespaceId := 1, deleted := false } :=
  (publish_slug_semantics
    { namespaces := [], tags := [], groups := [],
      files := [{ id := 3, name := "a", localName := "l", userId := 1, fileSize := 0, fileType := "", isPublic := false, publicFilename := ⟨"", false⟩, groups := [], tags := [], namespaceRef := some 1, namespaceId := 1, deleted := false }],
      nextId := 4 }
    { id := 3, name := "a", localName := "l", userId := 1, fileSize := 0, fileType := "", isPublic := false, publicFilename := ⟨"", false⟩, groups := [], tags := [], namespaceRef := some 1, namespaceId := 1, deleted := false }
    "abc" "r").2.2 (by decide)

/-- C1 counterexample: publishing file 1 under the slug "abc" that file 1
itself already holds reports a conflict, although the colliding slug does
not belong to a different file — `GetPublicFile` resolves "abc" to the very
file being published. -/
theorem publish_conflict_with_own_slug :
    (File.Publish
        { namespaces := [], tags := [], groups := [],
          files := [{ id := 1, name := "a", localName := "l", userId := 1, fileSize := 0, fileType := "", isPublic := true, publicFilename := ⟨"abc", true⟩, groups := [], tags := [], namespaceRef := some 1, namespaceId := 1, deleted := false }],
          nextId := 2 }
        { id := 1, name := "a", localName := "l", userId := 1, fileSize := 0, fileType := "", isPublic := true, publicFilename := ⟨"abc", true⟩, groups := [], tags := [], namespaceRef := some 1, namespaceId := 1, deleted := false }
        "abc" "r").1 = true ∧
    GetPublicFile
        { namespaces := [], tags := [], groups := [],
          files := [{ id := 1, name := "a", localName := "l", userId := 1, fileSize := 0, fileType := "", isPublic := true, publicFilename := ⟨"abc", true⟩, groups := [], tags := [], namespaceRef := some 1, namespaceId := 1, deleted := false }],
          nextId := 2 }
        "abc"
      = some { id := 1, name := "a", localName := "l", userId := 1, fileSize := 0, fileType := "", isPublic := true, publicFilename := ⟨"abc", true⟩, groups := [], tags := [], namespaceRef := some 1, namespaceId := 1, deleted := false } := by
  decide

/-- C4 (amended): `File.SetVilibility` persists only the `isPublic` flag;
the `publicFilename` column is left untouched, so toggling a published
file to private does not clear (or free) its slug. -/
theorem setVilibility_semantics (db : DB) (f : File) (v : Bool) :
    (File.SetVilibility db f v).2.publicFilename = f.publicFilename ∧
    (File.SetVilibility db f v).2.isPublic = v ∧
    getFileById (File.SetVilibility db f v).1 f.id = some { f with isPublic := v } :=
  ⟨rfl, rfl, getFileById_saveFile db { f with isPublic := v }⟩

/-- C4 counterexample: turning a published file private leaves both the
in-memory and the persisted `publicFilename` bound to "abc", refuting the
claim that `setVisibility(file, false)` clears the public slug. -/
theorem setVilibility_keeps_slug :
    (File.SetVilibility
        { namespaces := [], tags := [], groups := [],
          files := [{ id := 1, name := "a", localName := "l", userId := 1, fileSize := 0, fileType := "", isPublic := true, publicFilename := ⟨"abc", true⟩, groups := [], tags := [], namespaceRef := some 1, namespaceId := 1, deleted := false }],
          nextId := 2 }
        { id := 1, name := "a", localName := "l", userId := 1, fileSize := 0, fileType := "", isPublic := true, publicFilename := ⟨"abc", true⟩, groups := [], tags := [], namespaceRef := some 1, namespaceId := 1, deleted := false }
        false).2.publicFilename = ⟨"abc", true⟩ ∧
    (getFileById
        (File.SetVilibility
          { namespaces := [], tags := [], groups := [],
            files := [{ id := 1, name := "a", localName := "l", userId := 1, fileSize := 0, fileType := "", isPublic := true, publicFilename := ⟨"abc", true⟩, groups := [], tags := [], namespaceRef := some 1, namespaceId := 1, deleted := false }],
            nextId := 2 }
          { id := 1, name := "a", localName := "l", userId := 1, fileSize := 0, fileType := "", isPublic := true, publicFilename := ⟨"abc", true⟩, groups := [], tags := [], namespaceRef := some 1, namespaceId := 1, deleted := false }
          false).1 1).map (fun g => g.publicFilename) = some ⟨"abc", true⟩ ∧
    (getFileById
        (File.SetVilibility
          { namespaces := [], tags := [], groups := [],
            files := [{ id := 1, name := "a", localName := "l", userId := 1, fileSize := 0, fileType := "", isPublic := true, publicFilename := ⟨"abc", true⟩, groups := [], tags := [], namespaceRef := some 1, namespaceId := 1, deleted := false }],
            nextId := 2 }
          { id := 1, name := "a", localName := "l", userId := 1, fileSize := 0, fileType := "", isPublic := true, publicFilename := ⟨"abc", true⟩, groups := [], tags := [], namespaceRef := some 1, namespaceId := 1, deleted := false }
          false).1 1).map (fun g => g.isPublic) = some false := by
  decide

/-- C7: a raw-bytes upload whose supplied checksum differs from the digest
of the data fails with the integrity error before anything is written: the
blob store and the database are returned unchanged. -/
theorem upload_checksum_mismatch_clean
    (db : DB) (blobs : List String) (user : User) (request : UploadRequest)
    (md5 : List Nat → String) (schemeOf : String → Option String)
    (draw : Nat → String) (rand20 : String) (up : Upstream) (insertFails : Bool)
    (htype : request.uploadType = UploadType.fileUpload)
    (hcap : user.canUploadFiles = true)
    (hsum : md5 request.data ≠ request.sum) :
    UploadfileHandler db blobs user request md5 schemeOf draw rand20 up insertFails
      = (UploadOutcome.integrityError, blobs, db) := by
  simp [UploadfileHandler, htype, hcap, hsum]

/-- C7 witness: a concrete mismatching raw upload changes nothing. -/
theorem upload_checksum_mismatch_clean_witness :
    UploadfileHandler { namespaces := [], tags := [], groups := [], files := [], nextId := 1 }
        [] { id := 1, canUploadFiles := true, allowedToUploadURLs := false, canWriteForeignNamespace := false, hasUploadLimit := false, maxURLcontentSize := 0 }
        { uploadType := UploadType.fileUpload, data := [], sum := "expected", name := "n", url := "", attributes := { tags := [], groups := [], nsName := "" } }
        (fun _ => "actual") (fun _ => none) (fun _ => "b") "r"
        { getFails := false, status := 200, contentLength := 0, bodyLen := 0 } false
      = (UploadOutcome.integrityError, [],
         { namespaces := [], tags := [], groups := [], files := [], nextId := 1 }) :=
  upload_checksum_mismatch_clean
    { namespaces := [], tags := [], groups := [], files := [], nextId := 1 }
    [] { id := 1, canUploadFiles := true, allowedToUploadURLs := false, canWriteForeignNamespace := false, hasUploadLimit := false, maxURLcontentSize := 0 }
    { uploadType := UploadType.fileUpload, data := [], sum := "expected", name := "n", url := "", attributes := { tags := [], groups := [], nsName := "" } }
    (fun _ => "actual") (fun _ => none) (fun _ => "b") "r"
    { getFails := false, status := 200, contentLength := 0, bodyLen := 0 } false
    rfl rfl (by decide)

/-- C10: the preview endpoint serves content only for a slug that resolves
to a stored, live file whose `isPublic` flag is set: an unresolved slug and
a slug on a non-public file both yield NotFound, and whatever is served
comes from the resolved public file. -/
theorem preview_requires_public (db : DB) (s : String) :
    (∀ f, GetPublicFile db s = some f →
        f ∈ db.files ∧ f.deleted = false ∧ f.publicFilename = ⟨s, true⟩) ∧
    (GetPublicFile db s = none → PrevievFileHandler db s = PreviewOutcome.notFound) ∧
    (∀ f, GetPublicFile db s = some f → f.isPublic = false →
        PrevievFileHandler db s = PreviewOutcome.notFound) ∧
    (∀ ln ct, PrevievFileHandler db s = PreviewOutcome.serve ln ct →
        ∃ f, GetPublicFile db s = some f ∧ f.isPublic = true ∧
          f.localName = ln ∧ f.fileType = ct) := by
  refine ⟨?_, ?_, ?_, ?_⟩
  · intro f h
    rw [GetPublicFile] at h
    have hmem := List.mem_of_find?_eq_some h
    have hpred := List.find?_some h
    rw [List.mem_filter] at hmem
    have hval : f.publicFilename.valid = true ∧ f.publicFilename.str = s := by
      simpa [Bool.and_eq_true] using hpred
    refine ⟨hmem.1, by simpa using hmem.2, ?_⟩
    calc f.publicFilename = ⟨f.publicFilename.str, f.publicFilename.valid⟩ := rfl
      _ = ⟨s, true⟩ := by rw [hval.1, hval.2]
  · intro h
    simp [PrevievFileHandler, h]
  · intro f h hpub
    simp [PrevievFileHandler, h, hpub]
  · intro ln ct h
    cases hg : GetPublicFile db s with
    | none => simp [PrevievFileHandler, hg] at h
    | some f =>
      by_cases hp : f.isPublic = true
      · refine ⟨f, rfl, hp, ?_⟩
        simpa [PrevievFileHandler, hg, hp] using h
      · simp [PrevievFileHandler, hg, hp] at h

/-- C10 witness: an unknown slug on an empty store is NotFound. -/
theorem preview_requires_public_witness :
    PrevievFileHandler { namespaces := [], tags := [], groups := [], files := [], nextId := 1 } "s"
      = PreviewOutcome.notFound :=
  (preview_requires_public
    { namespaces := [], tags := [], groups := [], files := [], nextId := 1 } "s").2.1 rfl

/-- C5 (amended): during `File.Insert` a draft tag is resolved by name
alone: the first existing row carrying the name — in whatever namespace —
is reused, and only an absent name is created, in the draft's namespace.
Hence no new row is created when the name exists anywhere, and the
attached row's namespace need not be the file's. -/
theorem insert_tag_lookup_by_name_only
    (db : DB) (f : File) (uid : Nat) (n : String) (tns : Nat)
    (htags : f.tags = [{ id := 0, name := n, namespaceId := tns }])
    (hgroups : f.groups = []) :
    (File.Insert db f uid false).2.2.tags
        = [(db.tags.find? (fun u => u.name == n)).getD
             { id := db.nextId, name := n, namespaceId := tns }] ∧
    (File.Insert db f uid false).2.1.tags
        = db.tags ++ (if (db.tags.find? (fun u => u.name == n)).isSome then []
                      else [{ id := db.nextId, name := n, namespaceId := tns }]) := by
  cases h : db.tags.find? (fun u => u.name == n) with
  | some u =>
    constructor <;>
      simp [File.Insert, htags, hgroups, resolveTags, resolveGroups, resolveTag, h]
  | none =>
    constructor <;>
      simp [File.Insert, htags, hgroups, resolveTags, resolveGroups, resolveTag,
            Tag.Insert, h]

/-- C5 witness: inserting a file whose draft tag "x" lives in namespace 1
while the store already holds a tag "x" in namespace 2 reuses that foreign
row and creates nothing. -/
theorem insert_tag_lookup_by_name_only_witness :
    (File.Insert
        { namespaces := [], tags := [{ id := 5, name := "x", namespaceId := 2 }], groups := [], files := [], nextId := 6 }
        { id := 0, name := "a", localName := "l", userId := 0, fileSize := 0, fileType := "", isPublic := false, publicFilename := ⟨"", false⟩, groups := [], tags := [{ id := 0, name := "x", namespaceId := 1 }], namespaceRef := some 1, namespaceId := 1, deleted := false }
        7 false).2.2.tags = [{ id := 5, name := "x", namespaceId := 2 }] ∧
    (File.Insert
        { namespaces := [], tags := [{ id := 5, name := "x", namespaceId := 2 }], groups := [], files := [], nextId := 6 }
        { id := 0, name := "a", localName := "l", userId := 0, fileSize := 0, fileType := "", isPublic := false, publicFilename := ⟨"", false⟩, groups := [], tags := [{ id := 0, name := "x", namespaceId := 1 }], namespaceRef := some 1, namespaceId := 1, deleted := false }
        7 false).2.1.tags = [{ id := 5, name := "x", namespaceId := 2 }] :=
  insert_tag_lookup_by_name_only
    { namespaces := [], tags := [{ id := 5, name := "x", namespaceId := 2 }], groups := [], files := [], nextId := 6 }
    { id := 0, name := "a", localName := "l", userId := 0, fileSize := 0, fileType := "", isPublic := false, publicFilename := ⟨"", false⟩, groups := [], tags := [{ id := 0, name := "x", namespaceId := 1 }], namespaceRef := some 1, namespaceId := 1, deleted := false }
    7 "x" 1 rfl rfl

/-- C5 counterexample: the file inserted into namespace 1 ends up carrying
a tag row whose namespace is 2 — the lookup ignored the namespace, so the
attached tag does not belong to the file's namespace. -/
theorem insert_attaches_foreign_namespace_tag :
    (File.Insert
        { namespaces := [], tags := [{ id := 5, name := "x", namespaceId := 2 }], groups := [], files := [], nextId := 6 }
        { id := 0, name := "a", localName := "l", userId := 0, fileSize := 0, fileType := "", isPublic := false, publicFilename := ⟨"", false⟩, groups := [], tags := [{ id := 0, name := "x", namespaceId := 1 }], namespaceRef := some 1, namespaceId := 1, deleted := false }
        7 false).2.2.namespaceId = 1 ∧
    (File.Insert
        { namespaces := [], tags := [{ id := 5, name := "x", namespaceId := 2 }], groups := [], files := [], nextId := 6 }
        { id := 0, name := "a", localName := "l", userId := 0, fileSize := 0, fileType := "", isPublic := false, publicFilename := ⟨"", false⟩, groups := [], tags := [{ id := 0, name := "x", namespaceId := 1 }], namespaceRef := some 1, namespaceId := 1, deleted := false }
        7 false).2.2.tags = [{ id := 5, name := "x", namespaceId := 2 }] := by
  decide

/-- C9: `File.RemoveTags` is idempotent: on a file carrying tag "x" the
first removal strictly shrinks the tag set (the orchestrator's
`didUpdate` comparison holds), the second removal changes nothing (the
comparison fails), and removing names matching no attached tag returns the
store and the file unchanged. -/
theorem removeTags_idempotent (db : DB) (f : File)
    (hx : f.HasTag "x" = true) :
    (File.RemoveTags db f ["x"]).2.tags.length < f.tags.length ∧
    ¬ ((File.RemoveTags (File.RemoveTags db f ["x"]).1
          (File.RemoveTags db f ["x"]).2 ["x"]).2.tags.length
        < (File.RemoveTags db f ["x"]).2.tags.length) ∧
    (∀ names : List String, (∀ m ∈ names, f.HasTag m = false) →
        File.RemoveTags db f names = (db, f)) := by
  have hex : ∃ t ∈ f.tags, t.name = "x" := by
    simpa [File.HasTag, List.any_eq_true] using hx
  obtain ⟨t0, ht0, hname⟩ := hex
  have hne : ¬ f.tags.length = 0 := by
    intro h0
    rw [List.length_eq_zero] at h0
    rw [h0] at ht0
    simp at ht0
  have hdrop : (f.tags.filter (fun t => !(["x"].contains t.name))).length
      < f.tags.length := by
    refine List.length_filter_lt_length_iff_exists.mpr ⟨t0, ht0, ?_⟩
    simp [hname]
  have hr1 : File.RemoveTags db f ["x"]
      = (saveFile db { f with tags := f.tags.filter (fun t => !(["x"].contains t.name)) },
         { f with tags := f.tags.filter (fun t => !(["x"].contains t.name)) }) := by
    simp only [File.RemoveTags]
    rw [if_neg hne, if_pos hdrop]
  have hnm : ∀ t ∈ f.tags.filter (fun t => !(["x"].contains t.name)),
      (["x"] : List String).contains t.name = false := by
    intro t ht
    have := List.of_mem_filter ht
    simpa using this
  refine ⟨?_, ?_, ?_⟩
  · rw [hr1]
    exact hdrop
  · rw [hr1]
    rw [RemoveTags_no_match _ _ _ hnm]
    exact Nat.lt_irrefl _
  · intro names hn
    apply RemoveTags_no_match
    intro t ht
    by_contra hc
    have hmem : t.name ∈ names := by
      have hc' : names.contains t.name = true := by
        cases hcc : names.contains t.name with
        | true => rfl
        | false => exact absurd hcc hc
      simpa using hc'
    have htag : f.HasTag t.name = true := by
      have : ∃ u ∈ f.tags, u.name = t.name := ⟨t, ht, rfl⟩
      simpa [File.HasTag, List.any_eq_true] using this
    have := hn t.name hmem
    rw [htag] at this
    exact absurd this (by simp)

/-- C9 witness: removing "x" from a file with exactly that tag shrinks the
tag set below 1. -/
theorem removeTags_idempotent_witness :
    (File.RemoveTags
        { namespaces := [], tags := [{ id := 1, name := "x", namespaceId := 1 }], groups := [], files := [], nextId := 2 }
        { id := 1, name := "a", localName := "l", userId := 1, fileSize := 0, fileType := "", isPublic := false, publicFilename := ⟨"", false⟩, groups := [], tags := [{ id := 1, name := "x", namespaceId := 1 }], namespaceRef := some 1, namespaceId := 1, deleted := false }
        ["x"]).2.tags.length < 1 :=
  (removeTags_idempotent
    { namespaces := [], tags := [{ id := 1, name := "x", namespaceId := 1 }], groups := [], files := [], nextId := 2 }
    { id := 1, name := "a", localName := "l", userId := 1, fileSize := 0, fileType := "", isPublic := false, publicFilename := ⟨"", false⟩, groups := [], tags := [{ id := 1, name := "x", namespaceId := 1 }], namespaceRef := some 1, namespaceId := 1, deleted := false }
    (by decide)).1

/-- C2: the handler's `didUpdate` flag is overwritten, not aggregated: a
request renaming the file to "b" and removing the absent tag "zz" gets the
no-op response even though the rename was applied and persisted (the
stored row is named "b" afterwards). -/
theorem update_didUpdate_clobbered :
    (executeAction
        { namespaces := [{ id := 1, name := "ns", ownerId := 7 }], tags := [{ id := 3, name := "x", namespaceId := 1 }], groups := [],
          files := [{ id := 1, name := "a", localName := "l", userId := 7, fileSize := 0, fileType := "", isPublic := false, publicFilename := ⟨"", false⟩, groups := [], tags := [{ id := 3, name := "x", namespaceId := 1 }], namespaceRef := some 1, namespaceId := 1, deleted := false }],
          nextId := 10 }
        []
        { id := 1, name := "a", localName := "l", userId := 7, fileSize := 0, fileType := "", isPublic := false, publicFilename := ⟨"", false⟩, groups := [], tags := [{ id := 3, name := "x", namespaceId := 1 }], namespaceRef := some 1, namespaceId := 1, deleted := false }
        "update"
        { newName := "b", isPublic := "", newNamespace := "", addTags := [], removeTags := ["zz"], addGroups := [], removeGroups := [] }).1
      = UpdateOutcome.nothingToDo ∧
    (getFileById
        (executeAction
          { namespaces := [{ id := 1, name := "ns", ownerId := 7 }], tags := [{ id := 3, name := "x", namespaceId := 1 }], groups := [],
            files := [{ id := 1, name := "a", localName := "l", userId := 7, fileSize := 0, fileType := "", isPublic := false, publicFilename := ⟨"", false⟩, groups := [], tags := [{ id := 3, name := "x", namespaceId := 1 }], namespaceRef := some 1, namespaceId := 1, deleted := false }],
            nextId := 10 }
          []
          { id := 1, name := "a", localName := "l", userId := 7, fileSize := 0, fileType := "", isPublic := false, publicFilename := ⟨"", false⟩, groups := [], tags := [{ id := 3, name := "x", namespaceId := 1 }], namespaceRef := some 1, namespaceId := 1, deleted := false }
          "update"
          { newName := "b", isPublic := "", newNamespace := "", addTags := [], removeTags := ["zz"], addGroups := [], removeGroups := [] }).2.1
        1).map (fun g => g.name) = some "b" := by
  decide

/-- C6: an update request whose only sub-action is a new namespace is a
complete no-op — the handler's namespace branch is an empty `//TODO` stub,
so the file keeps namespace 1 and the store is untouched, although
namespace "ns2" exists. -/
theorem update_ignores_new_namespace :
    executeAction
        { namespaces := [{ id := 1, name := "ns1", ownerId := 7 }, { id := 2, name := "ns2", ownerId := 7 }], tags := [], groups := [],
          files := [{ id := 1, name := "a", localName := "l", userId := 7, fileSize := 0, fileType := "", isPublic := false, publicFilename := ⟨"", false⟩, groups := [], tags := [], namespaceRef := some 1, namespaceId := 1, deleted := false }],
          nextId := 10 }
        []
        { id := 1, name := "a", localName := "l", userId := 7, fileSize := 0, fileType := "", isPublic := false, publicFilename := ⟨"", false⟩, groups := [], tags := [], namespaceRef := some 1, namespaceId := 1, deleted := false }
        "update"
        { newName := "", isPublic := "", newNamespace := "ns2", addTags := [], removeTags := [], addGroups := [], removeGroups := [] }
      = (UpdateOutcome.nothingToDo,
         { namespaces := [{ id := 1, name := "ns1", ownerId := 7 }, { id := 2, name := "ns2", ownerId := 7 }], tags := [], groups := [],
           files := [{ id := 1, name := "a", localName := "l", userId := 7, fileSize := 0, fileType := "", isPublic := false, publicFilename := ⟨"", false⟩, groups := [], tags := [], namespaceRef := some 1, namespaceId := 1, deleted := false }],
           nextId := 10 },
         [],
         { id := 1, name := "a", localName := "l", userId := 7, fileSize := 0, fileType := "", isPublic := false, publicFilename := ⟨"", false⟩, groups := [], tags := [], namespaceRef := some 1, namespaceId := 1, deleted := false }) := by
  decide

/-- C3: a URL upload whose advertised content length (200) exceeds the
caller's ceiling (100) fails — but the content blob created under the
allocated local name is still present afterwards; the handler returns
without removing it (no File row is created either, the store is
unchanged). -/
theorem upload_oversize_leaves_blob :
    UploadfileHandler
        { namespaces := [{ id := 2, name := "ns", ownerId := 7 }], tags := [], groups := [], files := [], nextId := 5 }
        []
        { id := 7, canUploadFiles := true, allowedToUploadURLs := true, canWriteForeignNamespace := false, hasUploadLimit := true, maxURLcontentSize := 100 }
        { uploadType := UploadType.urlUpload, data := [], sum := "", name := "a", url := "http://remote/x", attributes := { tags := [], groups := [], nsName := "ns" } }
        (fun _ => "") (fun _ => some "http") (fun _ => "blob0") "r"
        { getFails := false, status := 200, contentLength := 200, bodyLen := 200 } false
      = (UploadOutcome.fetchFailed "File too large", ["blob0"],
         { namespaces := [{ id := 2, name := "ns", ownerId := 7 }], tags := [], groups := [], files := [], nextId := 5 }) := by
  decide

/-- C8: the local-name allocator draws at most 5 random identifiers; when
every draw collides with a stored row it stops after exactly 5 attempts
with no name and the upload handler reports the exhaustion error without
touching the blob store or the database; when draw `j` is the first free
identifier the allocator returns it after `j + 1` draws, and on a
successful raw upload that identifier is the created blob's name and the
stored file's local name. -/
theorem local_name_allocation_bound
    (db : DB) (blobs : List String) (user : User) (request : UploadRequest)
    (md5 : List Nat → String) (schemeOf : String → Option String)
    (draw : Nat → String) (rand20 : String) (up : Upstream) (insertFails : Bool)
    (ns : Namespace)
    (htype : request.uploadType = UploadType.fileUpload)
    (hcap : user.canUploadFiles = true)
    (hsum : md5 request.data = request.sum)
    (hns : FindNamespace db request.attributes.nsName = some ns)
    (hown : ns.ownerId = user.id) :
    ((∀ i, i < 5 → countLocalName db (draw i) ≠ 0) →
        allocateLocalName db draw = (none, 5) ∧
        UploadfileHandler db blobs user request md5 schemeOf draw rand20 up insertFails
          = (UploadOutcome.allocationExhausted, blobs, db)) ∧
    (∀ j, j < 5 → countLocalName db (draw j) = 0 →
        (∀ t, t < j → countLocalName db (draw t) ≠ 0) →
        allocateLocalName db draw = (some (draw j), j + 1) ∧
        (insertFails = false →
          (UploadfileHandler db blobs user request md5 schemeOf draw rand20 up insertFails).2.1
              = blobs ++ [draw j] ∧
          ∃ g, (UploadfileHandler db blobs user request md5 schemeOf draw rand20 up insertFails).1
                  = UploadOutcome.success g.id ∧
              g ∈ (UploadfileHandler db blobs user request md5 schemeOf draw rand20 up insertFails).2.2.files ∧
              g.localName = draw j)) := by
  constructor
  · intro hcol
    have halloc : allocateLocalName db draw = (none, 5) := by
      rw [allocateLocalName]
      exact findFreeLocalName_none db draw 5 0 (fun t ht => by simpa using hcol t ht)
    refine ⟨halloc, ?_⟩
    simp [UploadfileHandler, uploadValidated, htype, hcap, hsum, hns,
          Namespace.IsOwnedBy, hown, halloc]
  · intro j hj hfree hprev
    have halloc : allocateLocalName db draw = (some (draw j), j + 1) := by
      rw [allocateLocalName]
      have := findFreeLocalName_first db draw 5 j 0 hj (by simpa using hfree)
        (fun t ht => by simpa using hprev t ht)
      simpa using this
    refine ⟨halloc, ?_⟩
    intro hins
    subst hins
    have hH : UploadfileHandler db blobs user request md5 schemeOf draw rand20 up false
        = (UploadOutcome.success
             (File.Insert db
               { id := 0, name := if request.name.length = 0 then rand20 else request.name,
                 localName := draw j, userId := user.id,
                 fileSize := (request.data.length : Int), fileType := "",
                 isPublic := false, publicFilename := ⟨"", false⟩,
                 groups := GroupsFromStringArr request.attributes.groups ns,
                 tags := TagsFromStringArr request.attributes.tags ns,
                 namespaceRef := some ns.id, namespaceId := ns.id, deleted := false }
               user.id false).2.2.id,
           blobs ++ [draw j],
           (File.Insert db
             { id := 0, name := if request.name.length = 0 then rand20 else request.name,
               localName := draw j, userId := user.id,
               fileSize := (request.data.length : Int), fileType := "",
               isPublic := false, publicFilename := ⟨"", false⟩,
               groups := GroupsFromStringArr request.attributes.groups ns,
               tags := TagsFromStringArr request.attributes.tags ns,
               namespaceRef := some ns.id, namespaceId := ns.id, deleted := false }
             user.id false).2.1) := by
      simp [UploadfileHandler, uploadValidated, htype, hcap, hsum, hns,
            Namespace.IsOwnedBy, hown, halloc, uploadInsert, File.Insert_ok_fst]
    rw [hH]
    exact ⟨rfl, ⟨_, rfl, File.Insert_ok_mem _ _ _, File.Insert_ok_localName _ _ _⟩⟩

/-- C8 witness: with every draw colliding with the stored local name "L",
allocation stops after exactly 5 attempts and the upload reports the
exhaustion error with nothing written. -/
theorem local_name_allocation_bound_witness :
    allocateLocalName
        { namespaces := [{ id := 1, name := "ns", ownerId := 7 }], tags := [], groups := [],
          files := [{ id := 1, name := "f", localName := "L", userId := 7, fileSize := 0, fileType := "", isPublic := false, publicFilename := ⟨"", false⟩, groups := [], tags := [], namespaceRef := some 1, namespaceId := 1, deleted := false }],
          nextId := 2 }
        (fun _ => "L") = (none, 5) ∧
    UploadfileHandler
        { namespaces := [{ id := 1, name := "ns", ownerId := 7 }], tags := [], groups := [],
          files := [{ id := 1, name := "f", localName := "L", userId := 7, fileSize := 0, fileType := "", isPublic := false, publicFilename := ⟨"", false⟩, groups := [], tags := [], namespaceRef := some 1, namespaceId := 1, deleted := false }],
          nextId := 2 }
        []
        { id := 7, canUploadFiles := true, allowedToUploadURLs := false, canWriteForeignNamespace := false, hasUploadLimit := false, maxURLcontentSize := 0 }
        { uploadType := UploadType.fileUpload, data := [], sum := "s", name := "n", url := "", attributes := { tags := [], groups := [], nsName := "ns" } }
        (fun _ => "s") (fun _ => none) (fun _ => "L") "r"
        { getFails := false, status := 200, contentLength := 0, bodyLen := 0 } false
      = (UploadOutcome.allocationExhausted, [],
         { namespaces := [{ id := 1, name := "ns", ownerId := 7 }], tags := [], groups := [],
           files := [{ id := 1, name := "f", localName := "L", userId := 7, fileSize := 0, fileType := "", isPublic := false, publicFilename := ⟨"", false⟩, groups := [], tags := [], namespaceRef := some 1, namespaceId := 1, deleted := false }],
           nextId := 2 }) :=
  (local_name_allocation_bound
    { namespaces := [{ id := 1, name := "ns", ownerId := 7 }], tags := [], groups := [],
      files := [{ id := 1, name := "f", localName := "L", userId := 7, fileSize := 0, fileType := "", isPublic := false, publicFilename := ⟨"", false⟩, groups := [], tags := [], namespaceRef := some 1, namespaceId := 1, deleted := false }],
      nextId := 2 }
    []
    { id := 7, canUploadFiles := true, allowedToUploadURLs := false, canWriteForeignNamespace := false, hasUploadLimit := false, maxURLcontentSize := 0 }
    { uploadType := UploadType.fileUpload, data := [], sum := "s", name := "n", url := "", attributes := { tags := [], groups := [], nsName := "ns" } }
    (fun _ => "s") (fun _ => none) (fun _ => "L") "r"
    { getFails := false, status := 200, contentLength := 0, bodyLen := 0 } false
    { id := 1, name := "ns", ownerId := 7 }
    rfl rfl rfl rfl rfl).1 (by decide)

end DataManager
